import Mathlib

/-!
Verification development for the ViewManager plugin configuration module
(src/ViewManager/config.py).  The Python module is shallowly embedded:

* Python dicts (insertion ordered, string keyed) become association lists
  with update-in-place / append semantics (dictSet), exact-key deletion
  (dictDel) and first-match lookup (dictGet?).
* Qt widgets are embedded as explicit state records: a combo box is its
  item list plus a current index (with the Qt conventions that index -1
  means no selection and that adding items to an empty combo selects
  index 0); a list-widget item is its UserRole data plus its check state.
* Stateful methods of ConfigWidget become functions from the widget
  state to Option of the widget state; a Python exception (KeyError on a
  missing dict key) is modelled as the result none.
* Python str primitives (strip, lower, split, int(), str()) are given
  structurally recursive executable models (pyStrip, lowerStr, pySplit,
  pyToInt?, pyStrOfInt); sorted(...) on strings is an insertion sort by
  the code-point order.
-/

namespace ViewManager

/-- Python dict with string keys, as an insertion-ordered association list. -/
abbrev Dict (V : Type) := List (String × V)

def dictKeys {V : Type} (d : Dict V) : List String := d.map Prod.fst

def dictGet? {V : Type} (d : Dict V) (k : String) : Option V :=
  (d.find? (fun p => p.1 == k)).map Prod.snd

def dictContains {V : Type} (d : Dict V) (k : String) : Bool :=
  (dictKeys d).contains k

/-- Python dict assignment d[k] = v : replace in place when the key is
present, append otherwise. -/
def dictSet {V : Type} (d : Dict V) (k : String) (v : V) : Dict V :=
  if dictContains d k then d.map (fun p => if p.1 == k then (k, v) else p)
  else d ++ [(k, v)]

/-- Python del d[k] for a present key (all entries with that key go). -/
def dictDel {V : Type} (d : Dict V) (k : String) : Dict V :=
  d.filter (fun p => ¬ p.1 == k)

/-- Python dict(pairs) : build a dict from a pair list, later pairs win. -/
def dictOfPairs {V : Type} (ps : List (String × V)) : Dict V :=
  ps.foldl (fun d p => dictSet d p.1 p.2) []

/-- Python str.strip(): drop leading and trailing whitespace.  Written
directly on the character list so that it evaluates by structural
recursion. -/
def pyStrip (s : String) : String :=
  ⟨((s.data.dropWhile Char.isWhitespace).reverse.dropWhile Char.isWhitespace).reverse⟩

/-- Python str.lower, character-wise (faithful for ASCII view names). -/
def lowerStr (s : String) : String := ⟨s.data.map Char.toLower⟩

/-- One step of Python str.split(sep) on a character list. -/
def splitOnCharList (sep : Char) : List Char → List (List Char)
  | [] => [[]]
  | c :: rest =>
    let r := splitOnCharList sep rest
    if c = sep then [] :: r
    else
      match r with
      | [] => [[c]]
      | h :: t => (c :: h) :: t

/-- Python s.split(sep) for a one-character separator. -/
def pySplit (s : String) (sep : Char) : List String :=
  (splitOnCharList sep s.data).map (fun l => ⟨l⟩)

/-- Decimal digits to a number, none on a non-digit. -/
def digitsToNatAux : List Char → Nat → Option Nat
  | [], acc => some acc
  | c :: rest, acc =>
    if c.isDigit then digitsToNatAux rest (acc * 10 + (c.toNat - 48)) else none

/-- Python int(s) on a plain (optionally negated) decimal string, none
where Python would raise ValueError. -/
def pyToInt? (s : String) : Option Int :=
  match s.data with
  | [] => none
  | '-' :: [] => none
  | '-' :: c :: rest => (digitsToNatAux (c :: rest) 0).map (fun n => -(n : Int))
  | c :: rest => (digitsToNatAux (c :: rest) 0).map (fun n => (n : Int))

/-- Decimal digits of n, least significant first; the fuel argument
keeps the recursion structural and n + 1 steps always suffice. -/
def natToRevDigits : Nat → Nat → List Char
  | 0, _ => []
  | fuel + 1, n =>
    if n < 10 then [Char.ofNat (48 + n)]
    else Char.ofNat (48 + n % 10) :: natToRevDigits fuel (n / 10)

/-- Python str(n) for a natural number. -/
def pyStrOfNat (n : Nat) : String := ⟨(natToRevDigits (n + 1) n).reverse⟩

/-- Python str(i) for an integer. -/
def pyStrOfInt : Int → String
  | Int.ofNat n => pyStrOfNat n
  | Int.negSucc n => "-" ++ pyStrOfNat (n + 1)

/-- Python truthiness of an optional string (None and the empty string
are falsy). -/
def strTruthy : Option String → Bool
  | none => false
  | some s => s ≠ ""

/-- Insert into a code-point-sorted string list. -/
def insertSorted (x : String) : List String → List String
  | [] => [x]
  | y :: ys => if x < y then x :: y :: ys else y :: insertSorted x ys

/-- Python sorted(...) on a list of strings. -/
def sortedStrings (l : List String) : List String := l.foldr insertSorted []

/-! ### Qt combo boxes -/

/-- A QComboBox: its item texts and its current index (-1 when nothing
is selected). -/
structure ComboState where
  items : List String
  currentIndex : Int
deriving DecidableEq

def comboCount (c : ComboState) : Nat := c.items.length

/-- QComboBox.currentText: the text at the current index, empty when the
index is out of range. -/
def comboCurrentText (c : ComboState) : String :=
  if 0 ≤ c.currentIndex then c.items.getD c.currentIndex.toNat "" else ""

/-- Index of the first list element equal to t, none when absent. -/
def findTextIdx (t : String) : List String → Option Nat
  | [] => none
  | s :: rest => if s == t then some 0 else (findTextIdx t rest).map (· + 1)

/-- QComboBox.findText with the default exact, case-sensitive match:
index of the first item equal to the text, -1 when absent. -/
def comboFindText (c : ComboState) (t : String) : Int :=
  match findTextIdx t c.items with
  | some i => (i : Int)
  | none => -1

def comboSetCurrentIndex (c : ComboState) (i : Int) : ComboState :=
  { c with currentIndex := i }

/-- ViewComboBox.select_view. -/
def comboSelectView (c : ComboState) (selected_text : Option String) : ComboState :=
  if strTruthy selected_text then
    comboSetCurrentIndex c (comboFindText c (selected_text.getD ""))
  else if comboCount c > 0 then comboSetCurrentIndex c 0
  else c

def LAST_VIEW_ITEM : String := "*Last View Used"

/-- The view definition stored under one name in the views mapping
(keys: columns, sort, applyRestriction, restrictionToApply, applySearch,
searchToApply). -/
structure ViewInfo where
  columns : List (String × Int)
  sort : List (String × Int)
  applyRestriction : Bool
  restrictionToApply : String
  applySearch : Bool
  searchToApply : String
deriving DecidableEq

/-- ViewComboBox.populate_combo: clear, optionally add the special
sentinel item first, add the view names sorted, then select.  Adding
items to the cleared combo makes index 0 current before select_view
runs. -/
def viewComboPopulate (special : Bool) (views : Dict ViewInfo)
    (selected_text : Option String) : ComboState :=
  let items := (if special then [LAST_VIEW_ITEM] else []) ++ sortedStrings (dictKeys views)
  comboSelectView { items := items, currentIndex := if items.isEmpty then -1 else 0 }
    selected_text

/-- SearchComboBox.select_value. -/
def searchComboSelectValue (c : ComboState) (search : String) : ComboState :=
  if search ≠ "" then comboSetCurrentIndex c (comboFindText c search)
  else if comboCount c > 0 then comboSetCurrentIndex c 0
  else c

/-! ### Column list widgets -/

/-- A QListWidgetItem of the columns list: the UserRole data (the column
name), whether the item carries Qt.ItemIsUserCheckable, and its check
state (an item whose check state was never set reads as unchecked). -/
structure ColItem where
  name : String
  checkable : Bool
  checked : Bool
deriving DecidableEq

/-- ColumnListWidget state: the items plus the two attributes populate
stores on the widget. -/
structure ColumnsWidget where
  items : List ColItem
  saved_column_widths : Dict Int
  all_columns_with_widths : List (String × Int)
deriving DecidableEq

namespace ColumnListWidget

/-- ColumnListWidget.populate_column: the ondevice column gets no
user-checkable flag and no check state. -/
def populate_column (colname : String) (is_checked : Bool) : ColItem :=
  { name := colname
    checkable := colname ≠ "ondevice"
    checked := if colname ≠ "ondevice" then is_checked else false }

/-- The loop of ColumnListWidget.populate over the stored columns,
threading the list of not-yet-used current column names (Python
list.remove drops the first occurrence). -/
def populateLoop (columns : List (String × Int)) (remaining : List String) :
    List ColItem × List String :=
  match columns with
  | [] => ([], remaining)
  | (colname, _) :: rest =>
    if remaining.contains colname then
      let r := populateLoop rest (remaining.erase colname)
      (populate_column colname true :: r.1, r.2)
    else populateLoop rest remaining

/-- ColumnListWidget.populate: stored columns that are current become
checked items in stored order, the remaining current columns follow
unchecked. -/
def populate (columns : List (String × Int)) (all_columns : List (String × Int)) :
    ColumnsWidget :=
  let r := populateLoop columns (all_columns.map Prod.fst)
  { items := r.1 ++ r.2.map (fun c => populate_column c false)
    saved_column_widths := dictOfPairs columns
    all_columns_with_widths := all_columns }

/-- ColumnListWidget.get_data: the checked columns in widget order
(ondevice always included), each with its previously saved width,
falling back to the current column size, falling back to -1. -/
def get_data (w : ColumnsWidget) : List (String × Int) :=
  w.items.filterMap (fun it =>
    let data := pyStrip it.name
    if it.checked || data == "ondevice" then
      let use_width :=
        ((w.all_columns_with_widths.find? (fun p => p.1 == data)).map Prod.snd).getD (-1)
      some (data, (dictGet? w.saved_column_widths data).getD use_width)
    else none)

end ColumnListWidget

/-- A sort-list QListWidgetItem: the UserRole data is the string
col ++ "|" ++ str(asc). -/
structure SortItem where
  data : String
  checked : Bool
deriving DecidableEq

structure SortWidget where
  items : List SortItem
deriving DecidableEq

namespace SortColumnListWidget

/-- SortColumnListWidget.populate_column (always user checkable, check
state always set). -/
def populate_column (col : String) (asc : Int) (is_checked : Bool) : SortItem :=
  { data := col ++ "|" ++ pyStrOfInt asc, checked := is_checked }

/-- The loop of SortColumnListWidget.populate over the stored sort
columns. -/
def populateLoop (columns : List (String × Int)) (remaining : List String) :
    List SortItem × List String :=
  match columns with
  | [] => ([], remaining)
  | (col, asc) :: rest =>
    if remaining.contains col then
      let r := populateLoop rest (remaining.erase col)
      (populate_column col asc true :: r.1, r.2)
    else populateLoop rest remaining

/-- SortColumnListWidget.populate. -/
def populate (columns : List (String × Int)) (all_columns : List (String × Int)) :
    SortWidget :=
  let r := populateLoop columns (all_columns.map Prod.fst)
  { items := r.1 ++ r.2.map (fun c => populate_column c 0 false) }

/-- SortColumnListWidget.get_data: checked items only, each UserRole
data split at the bar back into column name and ascending flag.  The
Python code would raise on malformed data (int() failure); items built
by populate_column are always well formed, and the defaults below are
never reached for them. -/
def get_data (w : SortWidget) : List (String × Int) :=
  w.items.filterMap (fun it =>
    if it.checked then
      let parts := pySplit (pyStrip it.data) (Char.ofNat 124)
      some (parts.headD "", (pyToInt? (parts.getD 1 "")).getD 0)
    else none)

end SortColumnListWidget

/-! ### The configuration dialog state and its handlers -/

/-- The mutable state of ConfigWidget that the handlers under
verification touch.  all_columns is the host column set captured at
construction (self.all_columns); gui_visible_columns is what
get_current_columns(visible_only=True) would return from the host at
the moment add_view runs. -/
structure ConfigState where
  views : Dict ViewInfo
  view_name : Option String
  columns_list : ColumnsWidget
  sort_list : SortWidget
  apply_restriction_checkbox : Bool
  search_restriction_combo : ComboState
  apply_search_checkbox : Bool
  saved_search_combo : ComboState
  select_view_combo : ComboState
  auto_view_combo : ComboState
  all_columns : List (String × Int)
  gui_visible_columns : List (String × Int)
deriving DecidableEq

/-- ConfigWidget.persist_view_config.  The Python code reads the
current view record and then overwrites all six of its keys, so the
stored record is rebuilt from the form controls; a missing key raises
KeyError, modelled as none. -/
def persist_view_config (s : ConfigState) : Option ConfigState :=
  match s.view_name with
  | none => some s
  | some vn =>
    if vn = "" then some s
    else
      match dictGet? s.views vn with
      | none => none
      | some _ =>
        let view_info : ViewInfo :=
          { columns := ColumnListWidget.get_data s.columns_list
            sort := SortColumnListWidget.get_data s.sort_list
            applyRestriction := s.apply_restriction_checkbox
            restrictionToApply :=
              if s.apply_restriction_checkbox then
                pyStrip (comboCurrentText s.search_restriction_combo)
              else ""
            applySearch := s.apply_search_checkbox
            searchToApply :=
              if s.apply_search_checkbox then
                pyStrip (comboCurrentText s.saved_search_combo)
              else "" }
        some { s with views := dictSet s.views vn view_info }

/-- ConfigWidget.select_view_combo_index_changed: optionally persist
the previous view, recompute the current view name from the combo, then
repopulate every form control from the stored record (or from empty
defaults when no view is selected). -/
def select_view_combo_index_changed (save_previous : Bool) (s0 : ConfigState) :
    Option ConfigState := do
  let s ← if save_previous then persist_view_config s0 else pure s0
  let view_name : Option String :=
    if comboCount s.select_view_combo = 0 then none
    else some (pyStrip (comboCurrentText s.select_view_combo))
  let fields? : Option (List (String × Int) × List (String × Int) ×
      List (String × Int) × Bool × String × Bool × String) :=
    if strTruthy view_name then
      match view_name with
      | some vn =>
        match dictGet? s.views vn with
        | some vi => some (vi.columns, vi.sort, s.all_columns,
            vi.applyRestriction, vi.restrictionToApply, vi.applySearch, vi.searchToApply)
        | none => none
      | none => none
    else some ([], [], [], false, "", false, "")
  match fields? with
  | none => none
  | some (columns, sort_columns, all_columns, apply_restriction,
      restriction_to_apply, apply_search, search_to_apply) =>
    pure { s with
      view_name := view_name
      columns_list := ColumnListWidget.populate columns all_columns
      sort_list := SortColumnListWidget.populate sort_columns all_columns
      apply_restriction_checkbox := apply_restriction
      search_restriction_combo :=
        searchComboSelectValue s.search_restriction_combo restriction_to_apply
      apply_search_checkbox := apply_search
      saved_search_combo :=
        searchComboSelectValue s.saved_search_combo search_to_apply }

/-- The view_info record add_view builds after its validation: a field
by field deep copy of the currently selected view when there is one,
otherwise the currently visible library columns with empty sort and
filters (none models the KeyError on a missing selected view). -/
def addViewInfo (s : ConfigState) : Option ViewInfo :=
  if strTruthy s.view_name then
    match s.view_name with
    | some vn =>
      match dictGet? s.views vn with
      | some old =>
        some { columns := old.columns, sort := old.sort,
               applyRestriction := old.applyRestriction,
               restrictionToApply := old.restrictionToApply,
               applySearch := old.applySearch,
               searchToApply := old.searchToApply : ViewInfo }
      | none => none
    | none => none
  else
    some { columns := s.gui_visible_columns, sort := [],
           applyRestriction := false, restrictionToApply := "",
           applySearch := false, searchToApply := "" : ViewInfo }

/-- ConfigWidget.add_view.  The dialog argument is the QInputDialog
outcome: none when cancelled, some raw text otherwise.  A name that
case-insensitively collides with an existing view is rejected by an
error dialog before any state changes. -/
def add_view (dialog : Option String) (s : ConfigState) : Option ConfigState :=
  match dialog with
  | none => some s
  | some raw =>
    let new_view_name := pyStrip raw
    if (dictKeys s.views).any
        (fun view_name => lowerStr view_name == lowerStr new_view_name) then
      some s
    else do
      let s ← persist_view_config s
      let view_info ← addViewInfo s
      let s := { s with view_name := some new_view_name,
                        views := dictSet s.views new_view_name view_info }
      let s := { s with select_view_combo :=
                   viewComboPopulate false s.views (some new_view_name) }
      let s ← select_view_combo_index_changed false s
      some { s with auto_view_combo :=
               (viewComboPopulate true s.views
                 (some (comboCurrentText s.auto_view_combo))) }

/-- ConfigWidget.rename_view.  The collision scan skips the view being
renamed; renaming to the unchanged name is a silent no-op. -/
def rename_view (dialog : Option String) (s : ConfigState) : Option ConfigState :=
  if ¬ strTruthy s.view_name then some s
  else
    match s.view_name with
    | none => some s
    | some old_view_name =>
      match dialog with
      | none => some s
      | some raw =>
        let new_view_name := pyStrip raw
        if new_view_name = old_view_name then some s
        else if (dictKeys s.views).any (fun view_name =>
            view_name ≠ old_view_name &&
            lowerStr view_name == lowerStr new_view_name) then
          some s
        else do
          let s ← persist_view_config s
          match dictGet? s.views old_view_name with
          | none => none
          | some view_info =>
            let s := { s with view_name := some new_view_name,
                              views := dictSet (dictDel s.views old_view_name)
                                         new_view_name view_info }
            let s := { s with select_view_combo :=
                         viewComboPopulate false s.views (some new_view_name) }
            let s ← select_view_combo_index_changed false s
            some { s with auto_view_combo :=
                     if comboCurrentText s.auto_view_combo = old_view_name then
                       viewComboPopulate true s.views (some new_view_name)
                     else viewComboPopulate true s.views none }

/-- ConfigWidget.delete_view.  The confirmed argument is the outcome of
the question dialog; declining leaves everything untouched. -/
def delete_view (confirmed : Bool) (s : ConfigState) : Option ConfigState :=
  if ¬ strTruthy s.view_name then some s
  else
    match s.view_name with
    | none => some s
    | some vn =>
      if ¬ confirmed then some s
      else if ¬ dictContains s.views vn then none
      else do
        let s := { s with views := dictDel s.views vn }
        let s := { s with select_view_combo :=
                     viewComboPopulate false s.views none }
        let s ← select_view_combo_index_changed false s
        some { s with auto_view_combo := viewComboPopulate true s.views none }

/-! ### Per-library configuration record and migrations -/

/-- Schema version numbers.  The module only compares versions for
equality; the occurring constants (the absent-key default 0, the
current 1.5, historical 1.3) are all exact one-decimal values, so a
version is modelled exactly as its value in tenths. -/
abbrev SchemaVersion := Nat

/-- The per-library settings record (keys views, lastView,
autoApplyView, viewToApply and, once migrated, SchemaVersion; an absent
SchemaVersion key is schemaVersion = none). -/
structure LibraryConfig where
  views : Dict ViewInfo
  lastView : String
  autoApplyView : Bool
  viewToApply : String
  schemaVersion : Option SchemaVersion
deriving DecidableEq

/-- DEFAULT_LIBRARY_VALUES (no SchemaVersion key). -/
def DEFAULT_LIBRARY_VALUES : LibraryConfig :=
  { views := [], lastView := "", autoApplyView := false,
    viewToApply := LAST_VIEW_ITEM, schemaVersion := none }

/-- DEFAULT_SCHEMA_VERSION = 1.5, in tenths. -/
def DEFAULT_SCHEMA_VERSION : SchemaVersion := 15

/-- The legacy JSONConfig file (plugins/View Manager): whether the file
exists on disk and whether the blob still holds a libraries key. -/
structure LegacyPrefs where
  fileExists : Bool
  libraries : Option (Dict LibraryConfig)
deriving DecidableEq

/-- The host per-library preferences store, restricted to the
ViewManagerPlugin namespace settings key, keyed by library uuid. -/
abbrev PrefsStore := Dict LibraryConfig

/-- set_library_config. -/
def set_library_config (store : PrefsStore) (library_id : String)
    (library_config : LibraryConfig) : PrefsStore :=
  dictSet store library_id library_config

/-- migrate_json_config_if_required.  removeSucceeds tells whether
os.remove succeeds; a failure is swallowed by the bare except. -/
def migrate_json_config_if_required (removeSucceeds : Bool) (p : LegacyPrefs) :
    LegacyPrefs :=
  if ¬ p.fileExists then p
  else if p.libraries.isNone then
    if removeSucceeds then { p with fileExists := false } else p
  else p

/-- migrate_library_config_if_required: no-op when the schema version
(0 when the key is absent) already equals the default, otherwise stamp
the default version and persist. -/
def migrate_library_config_if_required (store : PrefsStore) (library_id : String)
    (library_config : LibraryConfig) : PrefsStore × LibraryConfig :=
  let schema_version := library_config.schemaVersion.getD 0
  if schema_version = DEFAULT_SCHEMA_VERSION then (store, library_config)
  else
    let library_config := { library_config with
      schemaVersion := some DEFAULT_SCHEMA_VERSION }
    (set_library_config store library_id library_config, library_config)

/-- The three pieces of state get_library_config returns or updates:
the database store, the legacy blob, and the record handed back. -/
structure GetLibraryConfigResult where
  store : PrefsStore
  legacy : LegacyPrefs
  config : LibraryConfig
deriving DecidableEq

/-- get_library_config: pull the record out of the legacy blob when it
is still there (removing it, and dropping the libraries key once the
last library has migrated), otherwise read the database store with the
deep-copied defaults as fallback; then run the schema migration.
Mutations of the blob rewrite an existing file, leaving fileExists
untouched. -/
def get_library_config (store : PrefsStore) (legacy : LegacyPrefs)
    (library_id : String) : GetLibraryConfigResult :=
  let step1 : Option LibraryConfig × LegacyPrefs :=
    match legacy.libraries with
    | some libraries =>
      match dictGet? libraries library_id with
      | some cfg =>
        let libraries := dictDel libraries library_id
        (some cfg,
         { legacy with libraries :=
             if libraries.length = 0 then none else some libraries })
      | none => (none, legacy)
    | none => (none, legacy)
  let library_config :=
    step1.1.getD ((dictGet? store library_id).getD DEFAULT_LIBRARY_VALUES)
  let r := migrate_library_config_if_required store library_id library_config
  { store := r.1, legacy := step1.2, config := r.2 }

/-! ### Case-insensitive uniqueness of view names -/

/-- The §3 invariant: list of names pairwise distinct under
case-insensitive comparison. -/
def ciUnique : List String → Bool
  | [] => true
  | k :: ks => (ks.all (fun k2 => !(lowerStr k == lowerStr k2))) && ciUnique ks

/-! ### Derived definitions used by the verification -/

/-- The record persist_view_config writes for the selected view. -/
def persistedViewInfo (s : ConfigState) : ViewInfo :=
  { columns := ColumnListWidget.get_data s.columns_list
    sort := SortColumnListWidget.get_data s.sort_list
    applyRestriction := s.apply_restriction_checkbox
    restrictionToApply :=
      if s.apply_restriction_checkbox then
        pyStrip (comboCurrentText s.search_restriction_combo)
      else ""
    applySearch := s.apply_search_checkbox
    searchToApply :=
      if s.apply_search_checkbox then
        pyStrip (comboCurrentText s.saved_search_combo)
      else "" }

/-- The current-column names consumed by the populate loops, in order. -/
def removeList (rem names : List String) : List String :=
  names.foldl (fun r n => r.erase n) rem

/-- Decode-of-encode for one sort entry: the stored pair as it comes
back out of the widget UserRole data. -/
def sortRoundElem (p : String × Int) : String × Int :=
  let parts := pySplit (pyStrip (p.1 ++ "|" ++ pyStrOfInt p.2)) (Char.ofNat 124)
  (parts.headD "", (pyToInt? (parts.getD 1 "")).getD 0)

/-- The state the handler produces when nothing is selected (empty
combo or empty stripped text): all controls reset to empty defaults. -/
def selectDefaults (s : ConfigState) (vname : Option String) : ConfigState :=
  { s with view_name := vname,
           columns_list := ColumnListWidget.populate [] [],
           sort_list := SortColumnListWidget.populate [] [],
           apply_restriction_checkbox := false,
           search_restriction_combo :=
             searchComboSelectValue s.search_restriction_combo "",
           apply_search_checkbox := false,
           saved_search_combo := searchComboSelectValue s.saved_search_combo "" }

/-! ### Concrete states for witnesses and counterexamples -/

def emptyCombo : ComboState := { items := [], currentIndex := -1 }

def emptyColumnsWidget : ColumnsWidget :=
  { items := [], saved_column_widths := [], all_columns_with_widths := [] }

def emptySortWidget : SortWidget := { items := [] }

def sampleInfo : ViewInfo :=
  { columns := [("title", 40)], sort := [("title", 0)],
    applyRestriction := false, restrictionToApply := "",
    applySearch := false, searchToApply := "" }

/-- A dialog state with no views yet and nothing selected. -/
def c6start : ConfigState :=
  { views := [], view_name := none,
    columns_list := emptyColumnsWidget, sort_list := emptySortWidget,
    apply_restriction_checkbox := false, search_restriction_combo := emptyCombo,
    apply_search_checkbox := false, saved_search_combo := emptyCombo,
    select_view_combo := emptyCombo,
    auto_view_combo := { items := [LAST_VIEW_ITEM], currentIndex := 0 },
    all_columns := [], gui_visible_columns := [("title", 40)] }

/-- A dialog state whose only view is named exactly like the sentinel
and is currently selected (reachable through add_view, see the C6
counterexample). -/
def c3state : ConfigState :=
  { c6start with views := [(LAST_VIEW_ITEM, sampleInfo)],
                 view_name := some LAST_VIEW_ITEM,
                 select_view_combo := { items := [LAST_VIEW_ITEM], currentIndex := 0 } }

/-- A dialog state with one ordinary view selected. -/
def c3wstate : ConfigState :=
  { c6start with views := [("alpha", sampleInfo)],
                 view_name := some "alpha",
                 select_view_combo := { items := ["alpha"], currentIndex := 0 } }

/-- A dialog state with two case-distinct views. -/
def c1state : ConfigState :=
  { c6start with views := [("foo", sampleInfo), ("Bar", sampleInfo)],
                 view_name := some "foo",
                 select_view_combo := { items := ["Bar", "foo"], currentIndex := 1 } }

/-- A fully populated dialog state for the C2 witness: view v selected,
columns title (checked, saved width 50), ondevice (uncheckable) and
authors (unchecked), sort by title ascending, restriction crime with
the flag on, no saved search. -/
def c2state : ConfigState :=
  { views := [("v", sampleInfo)], view_name := some "v",
    columns_list :=
      { items := [{ name := "title", checkable := true, checked := true },
                  { name := "ondevice", checkable := false, checked := false },
                  { name := "authors", checkable := true, checked := false }],
        saved_column_widths := [("title", 50)],
        all_columns_with_widths := [("title", 60), ("authors", 80), ("ondevice", -1)] },
    sort_list := { items := [{ data := "title|0", checked := true },
                             { data := "authors|1", checked := false }] },
    apply_restriction_checkbox := true,
    search_restriction_combo := { items := ["", "crime"], currentIndex := 1 },
    apply_search_checkbox := false,
    saved_search_combo := { items := [""], currentIndex := 0 },
    select_view_combo := { items := ["v"], currentIndex := 0 },
    auto_view_combo := { items := [LAST_VIEW_ITEM, "v"], currentIndex := 0 },
    all_columns := [("title", 60), ("authors", 80), ("ondevice", -1)],
    gui_visible_columns := [] }

/-- A dialog state with both filter checkboxes off while the combos
still show stale names. -/
def c9state : ConfigState :=
  { c3wstate with
      apply_restriction_checkbox := false,
      search_restriction_combo := { items := ["", "crime"], currentIndex := 1 },
      apply_search_checkbox := false,
      saved_search_combo := { items := ["", "sci-fi"], currentIndex := 1 } }

/-! ### Dictionary lemmas -/

theorem dictContains_iff_mem {V : Type} (d : Dict V) (k : String) :
    dictContains d k = true ↔ k ∈ dictKeys d := by
  simp [dictContains]

theorem dictContains_of_dictGet?_some {V : Type} {d : Dict V} {k : String} {v : V}
    (h : dictGet? d k = some v) : dictContains d k = true := by
  rw [dictContains_iff_mem]
  unfold dictGet? at h
  rcases hf : d.find? (fun p => p.1 == k) with _ | q
  · rw [hf] at h; simp at h
  · have hq : q.1 = k := by simpa using List.find?_some hf
    have hm : q ∈ d := List.mem_of_find?_eq_some hf
    rw [dictKeys]
    exact hq ▸ List.mem_map_of_mem Prod.fst hm

theorem find?_map_update {V : Type} (d : Dict V) (k : String) (v : V)
    (h : k ∈ dictKeys d) :
    (d.map (fun p => if p.1 == k then (k, v) else p)).find? (fun p => p.1 == k) =
      some (k, v) := by
  induction d with
  | nil => simp [dictKeys] at h
  | cons p rest ih =>
    rw [List.map_cons]
    by_cases hk : p.1 = k
    · rw [if_pos (by simpa using hk)]
      exact List.find?_cons_of_pos _ (by simp)
    · have h' : k ∈ dictKeys rest := by
        simp only [dictKeys, List.map_cons, List.mem_cons] at h
        exact h.resolve_left (fun e => hk e.symm)
      rw [if_neg (by simpa using hk)]
      rw [List.find?_cons_of_neg _ (by simpa using hk)]
      exact ih h'

theorem find?_append_new {V : Type} (d : Dict V) (k : String) (v : V)
    (h : k ∉ dictKeys d) :
    (d ++ [(k, v)]).find? (fun p => p.1 == k) = some (k, v) := by
  induction d with
  | nil => exact List.find?_cons_of_pos _ (by simp)
  | cons p rest ih =>
    have hk : p.1 ≠ k := by
      intro e; exact h (by simp [dictKeys, e])
    have h' : k ∉ dictKeys rest := by
      intro hm
      refine h ?_
      rw [dictKeys] at hm ⊢
      rw [List.map_cons]
      exact List.mem_cons_of_mem _ hm
    rw [List.cons_append, List.find?_cons_of_neg _ (by simpa using hk)]
    exact ih h'

theorem dictGet?_dictSet_self {V : Type} (d : Dict V) (k : String) (v : V) :
    dictGet? (dictSet d k v) k = some v := by
  unfold dictSet dictGet?
  by_cases h : dictContains d k = true
  · rw [if_pos h, find?_map_update d k v ((dictContains_iff_mem d k).mp h)]
    rfl
  · rw [if_neg h, find?_append_new d k v
      (fun hm => h ((dictContains_iff_mem d k).mpr hm))]
    rfl

theorem dictKeys_dictSet_of_contains {V : Type} {d : Dict V} {k : String} (v : V)
    (h : dictContains d k = true) : dictKeys (dictSet d k v) = dictKeys d := by
  unfold dictSet
  rw [if_pos h]
  unfold dictKeys
  rw [List.map_map]
  refine List.map_congr_left (fun p _ => ?_)
  by_cases hk : p.1 = k
  · simp [hk]
  · simp [hk]

theorem dictKeys_dictSet_of_not_contains {V : Type} {d : Dict V} {k : String} (v : V)
    (h : dictContains d k = false) :
    dictKeys (dictSet d k v) = dictKeys d ++ [k] := by
  unfold dictSet
  rw [if_neg (by simp [h])]
  simp [dictKeys]

theorem mem_dictKeys_dictDel {V : Type} (d : Dict V) (k a : String) :
    a ∈ dictKeys (dictDel d k) ↔ a ∈ dictKeys d ∧ a ≠ k := by
  unfold dictDel dictKeys
  constructor
  · rintro hm
    rcases List.mem_map.mp hm with ⟨p, hp, rfl⟩
    rcases List.mem_filter.mp hp with ⟨hpd, hq⟩
    have : p.1 ≠ k := by simpa using hq
    exact ⟨List.mem_map_of_mem Prod.fst hpd, this⟩
  · rintro ⟨hm, hne⟩
    rcases List.mem_map.mp hm with ⟨p, hp, rfl⟩
    exact List.mem_map_of_mem Prod.fst
      (List.mem_filter.mpr ⟨hp, by simpa using hne⟩)

theorem dictGet?_of_mem_nodup {V : Type} {d : Dict V} {k : String} {v : V}
    (hmem : (k, v) ∈ d) (hnd : (dictKeys d).Nodup) : dictGet? d k = some v := by
  induction d with
  | nil => simp at hmem
  | cons p rest ih =>
    rcases List.mem_cons.mp hmem with h | h
    · subst h
      simp [dictGet?, List.find?]
    · have hk : p.1 ≠ k := by
        intro e
        have hmem2 : k ∈ dictKeys rest := by
          rw [dictKeys]
          exact List.mem_map_of_mem Prod.fst h
        rw [dictKeys, List.map_cons, List.nodup_cons, e] at hnd
        exact hnd.1 hmem2
      have hnd' : (dictKeys rest).Nodup := by
        rw [dictKeys, List.map_cons, List.nodup_cons] at hnd
        exact hnd.2
      have hb : (p.1 == k) = false := beq_eq_false_iff_ne.mpr hk
      simpa [dictGet?, List.find?, hb] using ih h hnd'

theorem dictOfPairs_eq_self {V : Type} (ps : List (String × V))
    (hnd : (ps.map Prod.fst).Nodup) : dictOfPairs ps = ps := by
  have main : ∀ (l : List (String × V)) (acc : Dict V),
      (l.map Prod.fst).Nodup → (∀ p ∈ l, dictContains acc p.1 = false) →
      l.foldl (fun d p => dictSet d p.1 p.2) acc = acc ++ l := by
    intro l
    induction l with
    | nil => intro acc _ _; simp
    | cons p rest ih =>
      intro acc hnd hacc
      have hstep : dictSet acc p.1 p.2 = acc ++ [p] := by
        unfold dictSet
        rw [if_neg (by simp [hacc p (List.mem_cons_self p rest)])]
      have hnd' : (rest.map Prod.fst).Nodup := by
        rw [List.map_cons, List.nodup_cons] at hnd
        exact hnd.2
      have hne : ∀ q ∈ rest, q.1 ≠ p.1 := by
        intro q hq e
        rw [List.map_cons, List.nodup_cons] at hnd
        exact hnd.1 (e ▸ List.mem_map_of_mem Prod.fst hq)
      have hacc' : ∀ q ∈ rest, dictContains (acc ++ [p]) q.1 = false := by
        intro q hq
        have h1 : dictContains acc q.1 = false := hacc q (List.mem_cons_of_mem p hq)
        rw [← Bool.not_eq_true, dictContains_iff_mem]
        intro hm
        rw [dictKeys, List.map_append] at hm
        rcases List.mem_append.mp hm with hm | hm
        · rw [← Bool.not_eq_true, dictContains_iff_mem] at h1
          exact h1 hm
        · simp at hm
          exact hne q hq hm
      calc (p :: rest).foldl (fun d q => dictSet d q.1 q.2) acc
          = rest.foldl (fun d q => dictSet d q.1 q.2) (acc ++ [p]) := by
            rw [List.foldl_cons, hstep]
        _ = (acc ++ [p]) ++ rest := ih (acc ++ [p]) hnd' hacc'
        _ = acc ++ p :: rest := by simp
  have := main ps [] hnd (by intro p _; rfl)
  simpa [dictOfPairs] using this

/-! ### Sorted string list lemmas -/

theorem mem_insertSorted (a x : String) (l : List String) :
    a ∈ insertSorted x l ↔ a = x ∨ a ∈ l := by
  induction l with
  | nil => simp [insertSorted]
  | cons y ys ih =>
    unfold insertSorted
    by_cases h : x < y
    · simp [h]
    · simp [h, ih]
      tauto

theorem mem_sortedStrings (a : String) (l : List String) :
    a ∈ sortedStrings l ↔ a ∈ l := by
  induction l with
  | nil => simp [sortedStrings]
  | cons x xs ih =>
    unfold sortedStrings at ih ⊢
    rw [List.foldr_cons, mem_insertSorted, ih, List.mem_cons]

/-! ### Case-insensitive uniqueness lemmas -/

theorem ciUnique_cons_iff (k : String) (ks : List String) :
    ciUnique (k :: ks) = true ↔
      (∀ k2 ∈ ks, lowerStr k ≠ lowerStr k2) ∧ ciUnique ks = true := by
  show ((ks.all (fun k2 => !(lowerStr k == lowerStr k2))) && ciUnique ks) = true ↔ _
  simp [List.all_eq_true]

theorem ciUnique_append_singleton (ks : List String) (n : String) :
    ciUnique (ks ++ [n]) = true ↔
      ciUnique ks = true ∧ ∀ k ∈ ks, lowerStr k ≠ lowerStr n := by
  induction ks with
  | nil => simp [ciUnique]
  | cons k ks ih =>
    rw [List.cons_append, ciUnique_cons_iff, ciUnique_cons_iff, ih]
    simp only [List.mem_append, List.mem_singleton, List.mem_cons]
    constructor
    · rintro ⟨hall, hu, hlast⟩
      refine ⟨⟨fun k2 hk2 => hall k2 (Or.inl hk2), hu⟩, ?_⟩
      rintro x (rfl | hx2)
      · exact hall n (Or.inr (Or.inl rfl))
      · exact hlast x hx2
    · rintro ⟨⟨hall, hu⟩, hlast⟩
      refine ⟨?_, hu, fun x hx => hlast x (Or.inr hx)⟩
      rintro k2 (hk2 | (rfl | h0))
      · exact hall k2 hk2
      · exact hlast k (Or.inl rfl)
      · exact absurd h0 (List.not_mem_nil k2)

theorem ciUnique_filter (p : String → Bool) (ks : List String)
    (h : ciUnique ks = true) : ciUnique (ks.filter p) = true := by
  induction ks with
  | nil => simpa using h
  | cons k ks ih =>
    rw [ciUnique_cons_iff] at h
    rcases h with ⟨hall, htl⟩
    by_cases hp : p k
    · rw [List.filter_cons_of_pos hp, ciUnique_cons_iff]
      exact ⟨fun k2 hk2 => hall k2 (List.mem_of_mem_filter hk2), ih htl⟩
    · rw [List.filter_cons_of_neg (by simpa using hp)]
      exact ih htl

/-! ### Combo box lemmas -/

theorem findTextIdx_getD_of_mem (t : String) (l : List String) (h : t ∈ l) :
    ∃ i : Nat, findTextIdx t l = some i ∧ l.getD i "" = t := by
  induction l with
  | nil => simp at h
  | cons x xs ih =>
    by_cases hx : x == t
    · exact ⟨0, by simp [findTextIdx, hx], by simpa using (eq_of_beq hx)⟩
    · have hne : x ≠ t := by simpa using hx
      have ht : t ∈ xs := by
        rcases List.mem_cons.mp h with h1 | h1
        · exact absurd h1.symm hne
        · exact h1
      obtain ⟨i, hfind, hget⟩ := ih ht
      exact ⟨i + 1, by simp [findTextIdx, hx, hfind], by simpa using hget⟩

theorem comboCurrentText_setIndex_findText (c : ComboState) (t : String)
    (h : t ∈ c.items) :
    comboCurrentText (comboSetCurrentIndex c (comboFindText c t)) = t := by
  obtain ⟨i, hfind, hget⟩ := findTextIdx_getD_of_mem t c.items h
  unfold comboFindText
  rw [hfind]
  unfold comboCurrentText comboSetCurrentIndex
  simpa using hget

theorem comboCurrentText_empty (c : ComboState) (h : c.items = []) :
    comboCurrentText c = "" := by
  unfold comboCurrentText
  split
  · simp [h]
  · rfl

theorem searchComboSelectValue_currentText (c : ComboState) (r : String)
    (hempty : r = "" → c.items.headD "" = "")
    (hmem : r ≠ "" → r ∈ c.items) :
    comboCurrentText (searchComboSelectValue c r) = r := by
  unfold searchComboSelectValue
  by_cases hr : r = ""
  · subst hr
    rw [if_neg (by simp)]
    by_cases hc : comboCount c > 0
    · rw [if_pos hc]
      rcases hi : c.items with _ | ⟨x, xs⟩
      · simp [comboCount, hi] at hc
      · have : x = "" := by simpa [hi] using hempty rfl
        simp [comboCurrentText, comboSetCurrentIndex, hi, this]
    · rw [if_neg hc]
      apply comboCurrentText_empty
      rcases hi : c.items with _ | ⟨x, xs⟩
      · rfl
      · exact absurd (by simp [comboCount, hi]) hc
  · rw [if_pos hr]
    exact comboCurrentText_setIndex_findText c r (hmem hr)

/-! ### Shape lemmas for the dialog handlers -/

theorem persist_view_config_shape {s s₁ : ConfigState}
    (h : persist_view_config s = some s₁) :
    s₁ = { s with views := s₁.views } ∧ dictKeys s₁.views = dictKeys s.views := by
  unfold persist_view_config at h
  split at h
  · cases h; exact ⟨rfl, rfl⟩
  · split at h
    · cases h; exact ⟨rfl, rfl⟩
    · split at h
      · cases h
      · rename_i vn hne vi hg
        cases h
        exact ⟨rfl, dictKeys_dictSet_of_contains _ (dictContains_of_dictGet?_some hg)⟩

theorem persist_view_config_some {s : ConfigState} {vn : String}
    (hv : s.view_name = some vn) (hne : vn ≠ "")
    (hg : (dictGet? s.views vn).isSome = true) :
    persist_view_config s =
      some { s with views := dictSet s.views vn (persistedViewInfo s) } := by
  rcases ho : dictGet? s.views vn with _ | vi
  · rw [ho] at hg; simp at hg
  · simp only [persist_view_config, hv, if_neg hne, ho, persistedViewInfo]

theorem select_changed_false_shape {s s₁ : ConfigState}
    (h : select_view_combo_index_changed false s = some s₁) :
    s₁.views = s.views ∧ s₁.all_columns = s.all_columns ∧
      s₁.select_view_combo = s.select_view_combo ∧
      s₁.auto_view_combo = s.auto_view_combo ∧
      s₁.gui_visible_columns = s.gui_visible_columns := by
  unfold select_view_combo_index_changed at h
  simp only [Bool.false_eq_true, if_false, Option.pure_def, Option.bind_eq_bind,
    Option.some_bind] at h
  split at h
  · cases h
  · cases h
    exact ⟨rfl, rfl, rfl, rfl, rfl⟩

/-! ### Populate and read-back lemmas for the column widgets -/

theorem mem_removeList_subset {x : String} :
    ∀ (names rem : List String), x ∈ removeList rem names → x ∈ rem := by
  intro names
  induction names with
  | nil => intro rem h; simpa [removeList] using h
  | cons n ns ih =>
    intro rem h
    have : x ∈ rem.erase n := ih (rem.erase n) (by simpa [removeList] using h)
    exact List.mem_of_mem_erase this

theorem not_mem_removeList_of_mem (x : String) :
    ∀ (names rem : List String), rem.Nodup → x ∈ names →
      (∀ n ∈ names, n ∈ rem) → names.Nodup → x ∉ removeList rem names := by
  intro names
  induction names with
  | nil => intro rem _ hx; simp at hx
  | cons n ns ih =>
    intro rem hnd hx hsub hnames
    have hstep : removeList rem (n :: ns) = removeList (rem.erase n) ns := rfl
    rw [hstep]
    rw [List.nodup_cons] at hnames
    rcases List.mem_cons.mp hx with rfl | hx2
    · intro hmem
      have : x ∈ rem.erase x := mem_removeList_subset ns (rem.erase x) hmem
      rw [hnd.mem_erase_iff] at this
      exact this.1 rfl
    · refine ih (rem.erase n) (hnd.erase n) hx2 ?_ hnames.2
      intro m hm
      have hmr : m ∈ rem := hsub m (List.mem_cons_of_mem n hm)
      have hmn : m ≠ n := fun e => hnames.1 (e ▸ hm)
      exact (List.mem_erase_of_ne hmn).mpr hmr

theorem filterMap_eq_self_of {α : Type} (l : List α) (f : α → Option α)
    (h : ∀ a ∈ l, f a = some a) : l.filterMap f = l := by
  induction l with
  | nil => rfl
  | cons a l ih =>
    rw [List.filterMap_cons, h a (List.mem_cons_self a l),
      ih (fun b hb => h b (List.mem_cons_of_mem a hb))]

theorem populateLoop_of_mem (columns : List (String × Int)) :
    ∀ (rem : List String), (∀ p ∈ columns, p.1 ∈ rem) →
      (columns.map Prod.fst).Nodup →
      ColumnListWidget.populateLoop columns rem =
        (columns.map (fun p => ColumnListWidget.populate_column p.1 true),
         removeList rem (columns.map Prod.fst)) := by
  induction columns with
  | nil => intro rem _ _; simp [ColumnListWidget.populateLoop, removeList]
  | cons p rest ih =>
    intro rem hmem hnd
    have hp : p.1 ∈ rem := hmem p (List.mem_cons_self p rest)
    have hc : rem.contains p.1 = true := List.elem_iff.mpr hp
    rw [List.map_cons, List.nodup_cons] at hnd
    have hmem' : ∀ q ∈ rest, q.1 ∈ rem.erase p.1 := by
      intro q hq
      have hne : q.1 ≠ p.1 := fun e => hnd.1 (e ▸ List.mem_map_of_mem Prod.fst hq)
      exact (List.mem_erase_of_ne hne).mpr (hmem q (List.mem_cons_of_mem p hq))
    rcases p with ⟨c, w⟩
    show (if rem.contains c = true then _ else _) = _
    rw [if_pos hc, ih (rem.erase c) hmem' hnd.2]
    rfl

theorem sortPopulateLoop_of_mem (columns : List (String × Int)) :
    ∀ (rem : List String), (∀ p ∈ columns, p.1 ∈ rem) →
      (columns.map Prod.fst).Nodup →
      SortColumnListWidget.populateLoop columns rem =
        (columns.map (fun p => SortColumnListWidget.populate_column p.1 p.2 true),
         removeList rem (columns.map Prod.fst)) := by
  induction columns with
  | nil => intro rem _ _; simp [SortColumnListWidget.populateLoop, removeList]
  | cons p rest ih =>
    intro rem hmem hnd
    have hp : p.1 ∈ rem := hmem p (List.mem_cons_self p rest)
    have hc : rem.contains p.1 = true := List.elem_iff.mpr hp
    rw [List.map_cons, List.nodup_cons] at hnd
    have hmem' : ∀ q ∈ rest, q.1 ∈ rem.erase p.1 := by
      intro q hq
      have hne : q.1 ≠ p.1 := fun e => hnd.1 (e ▸ List.mem_map_of_mem Prod.fst hq)
      exact (List.mem_erase_of_ne hne).mpr (hmem q (List.mem_cons_of_mem p hq))
    rcases p with ⟨c, a⟩
    show (if rem.contains c = true then _ else _) = _
    rw [if_pos hc, ih (rem.erase c) hmem' hnd.2]
    rfl

theorem append_self_nil {α : Type} {l1 l2 c : List α} (h1 : l1 = c) (h2 : l2 = []) :
    l1 ++ l2 = c := by
  rw [h1, h2, List.append_nil]

/-- Reading the columns widget back directly after populating it from a
well-formed stored column list returns exactly that list. -/
theorem get_data_populate (cols all_columns : List (String × Int))
    (hsub : ∀ p ∈ cols, p.1 ∈ all_columns.map Prod.fst)
    (hstrip : ∀ p ∈ cols, pyStrip p.1 = p.1)
    (hnd : (cols.map Prod.fst).Nodup)
    (hallnd : (all_columns.map Prod.fst).Nodup)
    (hallstrip : ∀ c ∈ all_columns.map Prod.fst, pyStrip c = c)
    (hond : "ondevice" ∈ all_columns.map Prod.fst →
      "ondevice" ∈ cols.map Prod.fst) :
    ColumnListWidget.get_data (ColumnListWidget.populate cols all_columns) = cols := by
  simp only [ColumnListWidget.populate]
  rw [populateLoop_of_mem cols _ hsub hnd]
  simp only [ColumnListWidget.get_data]
  rw [List.filterMap_append, List.filterMap_map, List.filterMap_map]
  refine append_self_nil (filterMap_eq_self_of _ _ ?_)
    (List.filterMap_eq_nil_iff.mpr ?_)
  · intro p hp
    rcases p with ⟨c, w⟩
    have hs : pyStrip c = c := hstrip (c, w) hp
    have hget : dictGet? (dictOfPairs cols) c = some w := by
      rw [dictOfPairs_eq_self cols hnd]
      exact dictGet?_of_mem_nodup hp hnd
    by_cases hc : c = "ondevice"
    · subst hc
      simp [Function.comp, ColumnListWidget.populate_column, hs, hget]
    · simp [Function.comp, ColumnListWidget.populate_column, hs, hget, hc]
  · intro c hc
    have hcall : c ∈ all_columns.map Prod.fst := mem_removeList_subset _ _ hc
    have hs : pyStrip c = c := hallstrip c hcall
    have hcnd : c ≠ "ondevice" := by
      intro e
      subst e
      exact not_mem_removeList_of_mem "ondevice" (cols.map Prod.fst)
        (all_columns.map Prod.fst) hallnd (hond hcall)
        (fun n hn => by
          rcases List.mem_map.mp hn with ⟨p, hp, rfl⟩
          exact hsub p hp) hnd hc
    simp [Function.comp, ColumnListWidget.populate_column, hs, hcnd]

/-- Reading the sort widget back directly after populating it from a
well-formed stored sort list returns exactly that list. -/
theorem sort_get_data_populate (cols all_columns : List (String × Int))
    (hsub : ∀ p ∈ cols, p.1 ∈ all_columns.map Prod.fst)
    (hnd : (cols.map Prod.fst).Nodup)
    (hdec : ∀ p ∈ cols, sortRoundElem p = p) :
    SortColumnListWidget.get_data (SortColumnListWidget.populate cols all_columns) =
      cols := by
  simp only [SortColumnListWidget.populate]
  rw [sortPopulateLoop_of_mem cols _ hsub hnd]
  simp only [SortColumnListWidget.get_data]
  rw [List.filterMap_append, List.filterMap_map, List.filterMap_map]
  refine append_self_nil (filterMap_eq_self_of _ _ ?_)
    (List.filterMap_eq_nil_iff.mpr ?_)
  · intro p hp
    have hd := hdec p hp
    rcases p with ⟨c, a⟩
    simp only [Function.comp, SortColumnListWidget.populate_column]
    rw [if_pos trivial]
    simpa [sortRoundElem] using hd
  · intro c hc
    simp [Function.comp, SortColumnListWidget.populate_column]

/-! ### Combo population and handler computation lemmas -/

theorem comboSelectView_items (c : ComboState) (t : Option String) :
    (comboSelectView c t).items = c.items := by
  unfold comboSelectView comboSetCurrentIndex
  split
  · rfl
  · split <;> rfl

theorem searchComboSelectValue_items (c : ComboState) (r : String) :
    (searchComboSelectValue c r).items = c.items := by
  unfold searchComboSelectValue comboSetCurrentIndex
  split
  · rfl
  · split <;> rfl

theorem viewComboPopulate_items (special : Bool) (views : Dict ViewInfo)
    (t : Option String) :
    (viewComboPopulate special views t).items =
      (if special then [LAST_VIEW_ITEM] else []) ++ sortedStrings (dictKeys views) := by
  unfold viewComboPopulate
  rw [comboSelectView_items]

theorem viewComboPopulate_none_currentText (special : Bool) (views : Dict ViewInfo) :
    comboCurrentText (viewComboPopulate special views none) =
      ((if special then [LAST_VIEW_ITEM] else []) ++
        sortedStrings (dictKeys views)).headD "" := by
  unfold viewComboPopulate comboSelectView
  rw [if_neg (by simp [strTruthy])]
  rcases hi : (if special then [LAST_VIEW_ITEM] else []) ++
      sortedStrings (dictKeys views) with _ | ⟨x, xs⟩
  · rw [if_neg (by simp [comboCount, hi])]
    exact comboCurrentText_empty _ rfl
  · rw [if_pos (by simp [comboCount, hi])]
    simp [comboCurrentText, comboSetCurrentIndex, hi]

theorem dictGet?_isSome_of_mem {V : Type} {d : Dict V} {k : String}
    (h : k ∈ dictKeys d) : (dictGet? d k).isSome = true := by
  have hex : ∃ p ∈ d, (p.1 == k) = true := by
    rcases List.mem_map.mp h with ⟨p, hp, rfl⟩
    exact ⟨p, hp, by simp⟩
  have hsome := List.find?_isSome.mpr hex
  unfold dictGet?
  rcases hf : List.find? (fun p => p.1 == k) d with _ | p
  · rw [hf] at hsome; simp at hsome
  · rw [hf]; rfl

/-- Full computation of the index-changed handler when a valid view is
selected in the combo. -/
theorem select_changed_false_compute {s : ConfigState} {vn : String} {vi : ViewInfo}
    (hcount : ¬ comboCount s.select_view_combo = 0)
    (hname : pyStrip (comboCurrentText s.select_view_combo) = vn)
    (hne : vn ≠ "")
    (hget : dictGet? s.views vn = some vi) :
    select_view_combo_index_changed false s = some
      { s with view_name := some vn,
               columns_list := ColumnListWidget.populate vi.columns s.all_columns,
               sort_list := SortColumnListWidget.populate vi.sort s.all_columns,
               apply_restriction_checkbox := vi.applyRestriction,
               search_restriction_combo :=
                 searchComboSelectValue s.search_restriction_combo vi.restrictionToApply,
               apply_search_checkbox := vi.applySearch,
               saved_search_combo :=
                 searchComboSelectValue s.saved_search_combo vi.searchToApply } := by
  have h1 : (if comboCount s.select_view_combo = 0 then none
      else some (pyStrip (comboCurrentText s.select_view_combo))) = some vn := by
    rw [if_neg hcount, hname]
  unfold select_view_combo_index_changed
  simp only [Bool.false_eq_true, if_false, Option.pure_def, Option.bind_eq_bind,
    Option.some_bind, h1, hget, strTruthy, hne]
  simp [hne]

/-- The index-changed handler cannot raise when the stripped combo text
is empty or names an existing view. -/
theorem select_changed_false_total (s : ConfigState)
    (h : pyStrip (comboCurrentText s.select_view_combo) = "" ∨
         pyStrip (comboCurrentText s.select_view_combo) ∈ dictKeys s.views) :
    ∃ s₁, select_view_combo_index_changed false s = some s₁ := by
  by_cases hcount : comboCount s.select_view_combo = 0
  · refine ⟨selectDefaults s none, ?_⟩
    unfold select_view_combo_index_changed selectDefaults
    simp only [Bool.false_eq_true, if_false, Option.pure_def, Option.bind_eq_bind,
      Option.some_bind, hcount, if_pos, strTruthy]
  · by_cases he : pyStrip (comboCurrentText s.select_view_combo) = ""
    · refine ⟨selectDefaults s (some ""), ?_⟩
      unfold select_view_combo_index_changed selectDefaults
      have h1 : (if comboCount s.select_view_combo = 0 then none
          else some (pyStrip (comboCurrentText s.select_view_combo))) =
          some "" := by rw [if_neg hcount, he]
      simp only [Bool.false_eq_true, if_false, Option.pure_def, Option.bind_eq_bind,
        Option.some_bind, h1, strTruthy]
      simp
    · have hmem := h.resolve_left he
      have hsome := dictGet?_isSome_of_mem hmem
      rcases hg : dictGet? s.views (pyStrip (comboCurrentText s.select_view_combo))
        with _ | vi
      · rw [hg] at hsome; simp at hsome
      · exact ⟨_, select_changed_false_compute hcount rfl he hg⟩

/-- Every item the populate loop installs, and every remaining name,
comes from the remaining-names list it was given. -/
theorem populateLoop_items_names (columns : List (String × Int)) :
    ∀ rem : List String,
      (∀ it ∈ (ColumnListWidget.populateLoop columns rem).1, it.name ∈ rem) ∧
      (∀ c ∈ (ColumnListWidget.populateLoop columns rem).2, c ∈ rem) := by
  induction columns with
  | nil =>
    intro rem
    constructor
    · intro it h; simp [ColumnListWidget.populateLoop] at h
    · intro c h; simpa [ColumnListWidget.populateLoop] using h
  | cons p rest ih =>
    intro rem
    rcases p with ⟨c0, w0⟩
    by_cases hc : rem.contains c0 = true
    · have hc0 : c0 ∈ rem := List.elem_iff.mp hc
      constructor
      · intro it h
        rw [show ColumnListWidget.populateLoop ((c0, w0) :: rest) rem =
            (ColumnListWidget.populate_column c0 true ::
              (ColumnListWidget.populateLoop rest (rem.erase c0)).1,
             (ColumnListWidget.populateLoop rest (rem.erase c0)).2) from by
          show (if rem.contains c0 = true then _ else _) = _
          rw [if_pos hc]] at h
        rcases List.mem_cons.mp h with rfl | h2
        · exact hc0
        · exact List.mem_of_mem_erase ((ih (rem.erase c0)).1 it h2)
      · intro c h
        rw [show ColumnListWidget.populateLoop ((c0, w0) :: rest) rem =
            (ColumnListWidget.populate_column c0 true ::
              (ColumnListWidget.populateLoop rest (rem.erase c0)).1,
             (ColumnListWidget.populateLoop rest (rem.erase c0)).2) from by
          show (if rem.contains c0 = true then _ else _) = _
          rw [if_pos hc]] at h
        exact List.mem_of_mem_erase ((ih (rem.erase c0)).2 c h)
    · have hstep : ColumnListWidget.populateLoop ((c0, w0) :: rest) rem =
          ColumnListWidget.populateLoop rest rem := by
        show (if rem.contains c0 = true then _ else _) = _
        rw [if_neg hc]
      rw [hstep]
      exact ih rem

/-- Whatever get_data returns after a populate names only current
columns (assuming the host column names carry no stray whitespace). -/
theorem get_data_populate_names_subset (columns all_columns : List (String × Int))
    (hallstrip : ∀ c ∈ all_columns.map Prod.fst, pyStrip c = c) :
    ∀ p ∈ ColumnListWidget.get_data (ColumnListWidget.populate columns all_columns),
      p.1 ∈ all_columns.map Prod.fst := by
  intro p hp
  simp only [ColumnListWidget.populate, ColumnListWidget.get_data] at hp
  rcases List.mem_filterMap.mp hp with ⟨it, hit, hf⟩
  have hname : it.name ∈ all_columns.map Prod.fst := by
    rcases List.mem_append.mp hit with h | h
    · exact (populateLoop_items_names columns _).1 it h
    · rcases List.mem_map.mp h with ⟨c, hc, rfl⟩
      exact (populateLoop_items_names columns _).2 c hc
  split at hf
  · cases hf
    simpa [hallstrip it.name hname] using hname
  · cases hf

/-! ### Shape lemmas for add, rename and delete -/

theorem bind_eq_some_helper {α β : Type} {x : Option α} {f : α → Option β} {b : β}
    (h : x >>= f = some b) : ∃ a, x = some a ∧ f a = some b := by
  cases x with
  | none => simp at h
  | some a => exact ⟨a, rfl, by simpa using h⟩

theorem dictKeys_dictDel {V : Type} (d : Dict V) (k : String) :
    dictKeys (dictDel d k) = (dictKeys d).filter (fun x => !(x == k)) := by
  induction d with
  | nil => rfl
  | cons p rest ih =>
    show dictKeys (List.filter _ (p :: rest)) = _
    rw [List.filter_cons]
    by_cases hk : p.1 = k
    · simp only [dictKeys, List.map_cons, List.filter_cons]
      rw [if_neg (by simpa using hk), if_neg (by simpa using hk)]
      exact ih
    · simp only [dictKeys, List.map_cons, List.filter_cons]
      rw [if_pos (by simpa using hk), if_pos (by simpa using hk)]
      rw [List.map_cons]
      exact congrArg (p.1 :: ·) ih

theorem any_lower_eq_false_iff (ks : List String) (n : String) :
    (ks.any (fun w => lowerStr w == lowerStr n)) = false ↔
      ∀ w ∈ ks, lowerStr w ≠ lowerStr n := by
  rw [← Bool.not_eq_true, List.any_eq_true]
  simp

theorem any_other_lower_eq_false_iff (ks : List String) (old n : String) :
    (ks.any (fun w => w ≠ old && lowerStr w == lowerStr n)) = false ↔
      ∀ w ∈ ks, w ≠ old → lowerStr w ≠ lowerStr n := by
  rw [← Bool.not_eq_true, List.any_eq_true]
  simp

theorem add_view_shape {raw : String} {s s' : ConfigState}
    (hfree : ((dictKeys s.views).any
      (fun w => lowerStr w == lowerStr (pyStrip raw))) = false)
    (h : add_view (some raw) s = some s') :
    ∃ s1 vi, persist_view_config s = some s1 ∧
      s'.views = dictSet s1.views (pyStrip raw) vi := by
  simp only [add_view] at h
  rw [hfree] at h
  simp only [Bool.false_eq_true, if_false] at h
  rcases bind_eq_some_helper h with ⟨s1, hp, h⟩
  rcases bind_eq_some_helper h with ⟨vi, hvi, h⟩
  rcases bind_eq_some_helper h with ⟨s3, hsel, hfin⟩
  cases hfin
  exact ⟨s1, vi, hp, (select_changed_false_shape hsel).1⟩

theorem add_view_cases {d : Option String} {s s' : ConfigState}
    (h : add_view d s = some s') :
    s' = s ∨ ∃ raw s1 vi, d = some raw ∧
      ((dictKeys s.views).any
        (fun w => lowerStr w == lowerStr (pyStrip raw))) = false ∧
      persist_view_config s = some s1 ∧
      s'.views = dictSet s1.views (pyStrip raw) vi := by
  rcases d with _ | raw
  · simp only [add_view] at h
    cases h
    exact Or.inl rfl
  · by_cases hcoll : ((dictKeys s.views).any
        (fun w => lowerStr w == lowerStr (pyStrip raw))) = true
    · simp only [add_view] at h
      rw [if_pos hcoll] at h
      cases h
      exact Or.inl rfl
    · have hfree := Bool.eq_false_iff.mpr hcoll
      obtain ⟨s1, vi, hp, hviews⟩ := add_view_shape hfree h
      exact Or.inr ⟨raw, s1, vi, rfl, hfree, hp, hviews⟩

theorem rename_view_shape {raw old : String} {s s' : ConfigState}
    (hv : s.view_name = some old) (hne : old ≠ "")
    (hchanged : pyStrip raw ≠ old)
    (hfree : ((dictKeys s.views).any (fun w =>
      w ≠ old && lowerStr w == lowerStr (pyStrip raw))) = false)
    (h : rename_view (some raw) s = some s') :
    ∃ s1 vi, persist_view_config s = some s1 ∧
      s'.views = dictSet (dictDel s1.views old) (pyStrip raw) vi := by
  simp only [rename_view] at h
  rw [if_neg (by simp [hv, strTruthy, hne])] at h
  simp only [hv] at h
  rw [if_neg hchanged, hfree] at h
  simp only [Bool.false_eq_true, if_false] at h
  rcases bind_eq_some_helper h with ⟨s1, hp, h⟩
  rcases hold : dictGet? s1.views old with _ | vi
  · rw [hold] at h; cases h
  · rw [hold] at h
    rcases bind_eq_some_helper h with ⟨s3, hsel, hfin⟩
    cases hfin
    exact ⟨s1, vi, hp, (select_changed_false_shape hsel).1⟩

theorem rename_view_cases {d : Option String} {s s' : ConfigState}
    (h : rename_view d s = some s') :
    s' = s ∨ ∃ raw old s1 vi, d = some raw ∧ s.view_name = some old ∧
      pyStrip raw ≠ old ∧
      ((dictKeys s.views).any (fun w =>
        w ≠ old && lowerStr w == lowerStr (pyStrip raw))) = false ∧
      persist_view_config s = some s1 ∧
      s'.views = dictSet (dictDel s1.views old) (pyStrip raw) vi := by
  by_cases ht : strTruthy s.view_name = true
  · rcases hv : s.view_name with _ | old
    · rw [hv] at ht; simp [strTruthy] at ht
    · have hne : old ≠ "" := by
        rw [hv] at ht; simpa [strTruthy] using ht
      rcases d with _ | raw
      · simp only [rename_view] at h
        rw [if_neg (by simp [hv, strTruthy, hne])] at h
        simp only [hv] at h
        cases h
        exact Or.inl rfl
      · by_cases hchanged : pyStrip raw = old
        · simp only [rename_view] at h
          rw [if_neg (by simp [hv, strTruthy, hne])] at h
          simp only [hv] at h
          rw [if_pos hchanged] at h
          cases h
          exact Or.inl rfl
        · by_cases hcoll : ((dictKeys s.views).any (fun w =>
              w ≠ old && lowerStr w == lowerStr (pyStrip raw))) = true
          · simp only [rename_view] at h
            rw [if_neg (by simp [hv, strTruthy, hne])] at h
            simp only [hv] at h
            rw [if_neg hchanged, if_pos hcoll] at h
            cases h
            exact Or.inl rfl
          · have hfree := Bool.eq_false_iff.mpr hcoll
            obtain ⟨s1, vi, hp, hviews⟩ :=
              rename_view_shape hv hne hchanged hfree h
            exact Or.inr ⟨raw, old, s1, vi, rfl, rfl, hchanged, hfree, hp, hviews⟩
  · simp only [rename_view] at h
    rw [if_pos (by simpa using ht)] at h
    cases h
    exact Or.inl rfl

theorem delete_view_shape {s s' : ConfigState} {vn : String}
    (hv : s.view_name = some vn) (hne : vn ≠ "")
    (h : delete_view true s = some s') :
    s'.views = dictDel s.views vn ∧
    s'.select_view_combo.items = sortedStrings (dictKeys (dictDel s.views vn)) ∧
    s'.auto_view_combo.items =
      LAST_VIEW_ITEM :: sortedStrings (dictKeys (dictDel s.views vn)) := by
  simp only [delete_view] at h
  rw [if_neg (by simp [hv, strTruthy, hne])] at h
  simp only [hv] at h
  rw [if_neg (by simp)] at h
  by_cases hcont : dictContains s.views vn = true
  · rw [if_neg (by simp [hcont])] at h
    rcases bind_eq_some_helper h with ⟨s4, hsel, hfin⟩
    cases hfin
    obtain ⟨hviews, _, hsel_combo, hauto, _⟩ := select_changed_false_shape hsel
    refine ⟨hviews, ?_, ?_⟩
    · rw [hsel_combo]
      simp [viewComboPopulate_items]
    · rw [hviews]
      simp [viewComboPopulate_items]
  · rw [if_pos (by simpa using hcont)] at h
    cases h


theorem delete_view_total {s : ConfigState} {vn : String}
    (hv : s.view_name = some vn) (hne : vn ≠ "")
    (hcont : dictContains s.views vn = true)
    (hkeys : ∀ k ∈ dictKeys s.views, pyStrip k = k) :
    ∃ s', delete_view true s = some s' := by
  simp only [delete_view]
  rw [if_neg (by simp [hv, strTruthy, hne])]
  simp only [hv]
  rw [if_neg (by simp), if_neg (by simp [hcont]), ← hv]
  have htot := select_changed_false_total
    { s with views := dictDel s.views vn,
             select_view_combo :=
               viewComboPopulate false (dictDel s.views vn) none } ?_
  · obtain ⟨s4, hs4⟩ := htot
    exact ⟨_, by rw [hs4]; rfl⟩
  · show pyStrip (comboCurrentText
      (viewComboPopulate false (dictDel s.views vn) none)) = "" ∨ _
    rw [viewComboPopulate_none_currentText]
    rcases hsort : sortedStrings (dictKeys (dictDel s.views vn)) with _ | ⟨x, xs⟩
    · left
      simp [hsort]
      rfl
    · have hxdel : x ∈ dictKeys (dictDel s.views vn) := by
        rw [← mem_sortedStrings, hsort]
        exact List.mem_cons_self x xs
      have hxkeys : x ∈ dictKeys s.views := ((mem_dictKeys_dictDel _ _ _).mp hxdel).1
      have hxstrip : pyStrip x = x := hkeys x hxkeys
      by_cases hx0 : x = ""
      · left
        simp only [Bool.false_eq_true, if_false, List.nil_append, List.headD_cons]
        rw [hxstrip, hx0]
      · right
        simp only [Bool.false_eq_true, if_false, List.nil_append, List.headD_cons]
        rw [hxstrip]
        exact hxdel

/-! ### get_library_config characterizations -/

theorem migrate_snd_indep (store store2 : PrefsStore) (lib : String)
    (cfg : LibraryConfig) :
    (migrate_library_config_if_required store lib cfg).2 =
      (migrate_library_config_if_required store2 lib cfg).2 := by
  unfold migrate_library_config_if_required
  by_cases h : cfg.schemaVersion.getD 0 = DEFAULT_SCHEMA_VERSION <;> simp [h]

theorem get_library_config_config_eq (store : PrefsStore) (legacy : LegacyPrefs)
    (lib : String) :
    (get_library_config store legacy lib).config =
      (migrate_library_config_if_required store lib
        ((legacy.libraries.bind (fun l => dictGet? l lib)).getD
          ((dictGet? store lib).getD DEFAULT_LIBRARY_VALUES))).2 := by
  unfold get_library_config
  rcases hL : legacy.libraries with _ | l
  · simp
  · rcases hg : dictGet? l lib with _ | cfg <;> simp [hg]

theorem get_library_config_fresh (store : PrefsStore) (legacy : LegacyPrefs)
    (lib : String)
    (hstore : dictGet? store lib = none)
    (hleg : legacy.libraries.bind (fun l => dictGet? l lib) = none) :
    get_library_config store legacy lib =
      { store := set_library_config store lib
          { DEFAULT_LIBRARY_VALUES with schemaVersion := some DEFAULT_SCHEMA_VERSION },
        legacy := legacy,
        config :=
          { DEFAULT_LIBRARY_VALUES with
              schemaVersion := some DEFAULT_SCHEMA_VERSION } } := by
  unfold get_library_config
  rcases hL : legacy.libraries with _ | l
  · simp [hstore, migrate_library_config_if_required, DEFAULT_LIBRARY_VALUES,
      DEFAULT_SCHEMA_VERSION]
  · have hg : dictGet? l lib = none := by
      rw [hL] at hleg; simpa using hleg
    simp [hg, hstore, migrate_library_config_if_required, DEFAULT_LIBRARY_VALUES,
      DEFAULT_SCHEMA_VERSION]

/-! ### Claim theorems -/

/-- C1: adding or renaming to a name that collides case-insensitively
with a different existing view is rejected with the whole dialog state
(views mapping, current selection, stored definitions) unchanged, and
add_view and rename_view both preserve case-insensitive uniqueness of
the view names. -/
theorem c1_collision_rejection_and_uniqueness :
    (∀ (s : ConfigState) (raw : String),
      ((dictKeys s.views).any
        (fun w => lowerStr w == lowerStr (pyStrip raw))) = true →
      add_view (some raw) s = some s) ∧
    (∀ (s : ConfigState) (old raw : String),
      s.view_name = some old → old ≠ "" → pyStrip raw ≠ old →
      ((dictKeys s.views).any (fun w =>
        w ≠ old && lowerStr w == lowerStr (pyStrip raw))) = true →
      rename_view (some raw) s = some s) ∧
    (∀ (s s' : ConfigState) (d : Option String),
      ciUnique (dictKeys s.views) = true → add_view d s = some s' →
      ciUnique (dictKeys s'.views) = true) ∧
    (∀ (s s' : ConfigState) (d : Option String),
      ciUnique (dictKeys s.views) = true → rename_view d s = some s' →
      ciUnique (dictKeys s'.views) = true) := by
  refine ⟨?_, ?_, ?_, ?_⟩
  · intro s raw hcoll
    simp only [add_view]
    rw [if_pos hcoll]
  · intro s old raw hv hne hchanged hcoll
    simp only [rename_view]
    rw [if_neg (by simp [hv, strTruthy, hne])]
    simp only [hv]
    rw [if_neg hchanged, if_pos hcoll]
  · intro s s' d hciu h
    rcases add_view_cases h with rfl | ⟨raw, s1, vi, -, hfree, hp, hviews⟩
    · exact hciu
    · have hkeys1 : dictKeys s1.views = dictKeys s.views :=
        (persist_view_config_shape hp).2
      have hall : ∀ w ∈ dictKeys s.views, lowerStr w ≠ lowerStr (pyStrip raw) :=
        (any_lower_eq_false_iff _ _).mp hfree
      have hnc : dictContains s1.views (pyStrip raw) = false := by
        rw [← Bool.not_eq_true, dictContains_iff_mem, hkeys1]
        intro hm
        exact hall _ hm rfl
      rw [hviews, dictKeys_dictSet_of_not_contains _ hnc, hkeys1]
      exact (ciUnique_append_singleton _ _).mpr ⟨hciu, hall⟩
  · intro s s' d hciu h
    rcases rename_view_cases h with rfl |
      ⟨raw, old, s1, vi, -, hv, hchanged, hfree, hp, hviews⟩
    · exact hciu
    · have hkeys1 : dictKeys s1.views = dictKeys s.views :=
        (persist_view_config_shape hp).2
      have hall : ∀ w ∈ dictKeys s.views, w ≠ old →
          lowerStr w ≠ lowerStr (pyStrip raw) :=
        (any_other_lower_eq_false_iff _ _ _).mp hfree
      have hdel : dictKeys (dictDel s1.views old) =
          (dictKeys s.views).filter (fun x => !(x == old)) := by
        rw [dictKeys_dictDel, hkeys1]
      have hnc : dictContains (dictDel s1.views old) (pyStrip raw) = false := by
        rw [← Bool.not_eq_true, dictContains_iff_mem, hdel]
        intro hm
        rcases List.mem_filter.mp hm with ⟨hmem, hneq⟩
        exact hall _ hmem (by simpa using hneq) rfl
      rw [hviews, dictKeys_dictSet_of_not_contains _ hnc, hdel]
      refine (ciUnique_append_singleton _ _).mpr
        ⟨ciUnique_filter _ _ hciu, ?_⟩
      intro k hk
      rcases List.mem_filter.mp hk with ⟨hmem, hneq⟩
      exact hall _ hmem (by simpa using hneq)

/-- C1 witness: on a state holding views foo and Bar, adding FOO and
renaming foo to BAR are both rejected unchanged, and uniqueness is
preserved through the rejected add. -/
theorem c1_witness :
    add_view (some " FOO ") c1state = some c1state ∧
    rename_view (some "BAR") c1state = some c1state ∧
    ciUnique (dictKeys c1state.views) = true :=
  ⟨c1_collision_rejection_and_uniqueness.1 c1state " FOO " (by decide),
   c1_collision_rejection_and_uniqueness.2.1 c1state "foo" "BAR" rfl
     (by decide) (by decide) (by decide),
   c1_collision_rejection_and_uniqueness.2.2.1 c1state c1state (some " FOO ")
     (by decide)
     (c1_collision_rejection_and_uniqueness.1 c1state " FOO " (by decide))⟩

/-- C3 counterexample: the claim fails as stated when the deleted view
is named exactly like the sentinel (reachable, see C6): after a
confirmed delete_view the name is gone from the views mapping but still
appears in the auto-apply list, whose fixed sentinel entry always
remains. -/
theorem c3_counterexample :
    c3state.view_name = some LAST_VIEW_ITEM ∧
    dictContains c3state.views LAST_VIEW_ITEM = true ∧
    (delete_view true c3state).map (fun s' =>
      (s'.auto_view_combo.items.contains LAST_VIEW_ITEM,
       dictContains s'.views LAST_VIEW_ITEM)) = some (true, false) := by
  decide

/-- C3 amended: declining the confirmation leaves everything unchanged;
a confirmed delete removes the selected view from the views mapping and
from the primary list, and from the auto-apply list as well unless the
view is named exactly like the fixed sentinel entry that list always
carries. -/
theorem c3_delete_view_amended (s : ConfigState) (vn : String)
    (hv : s.view_name = some vn) (hne : vn ≠ "")
    (hcont : dictContains s.views vn = true)
    (hkeys : ∀ k ∈ dictKeys s.views, pyStrip k = k) :
    delete_view false s = some s ∧
    ∃ s', delete_view true s = some s' ∧
      dictContains s'.views vn = false ∧
      vn ∉ s'.select_view_combo.items ∧
      (vn ≠ LAST_VIEW_ITEM → vn ∉ s'.auto_view_combo.items) := by
  constructor
  · simp only [delete_view]
    rw [if_neg (by simp [hv, strTruthy, hne])]
    simp only [hv]
    rw [if_pos (by simp)]
  · obtain ⟨s', hs'⟩ := delete_view_total hv hne hcont hkeys
    obtain ⟨hviews, hsel, hauto⟩ := delete_view_shape hv hne hs'
    refine ⟨s', hs', ?_, ?_, ?_⟩
    · rw [← Bool.not_eq_true, dictContains_iff_mem, hviews]
      intro hm
      exact ((mem_dictKeys_dictDel _ _ _).mp hm).2 rfl
    · rw [hsel]
      intro hm
      exact ((mem_dictKeys_dictDel _ _ _).mp ((mem_sortedStrings _ _).mp hm)).2 rfl
    · intro hsent
      rw [hauto]
      intro hm
      rcases List.mem_cons.mp hm with h1 | h1
      · exact hsent h1
      · exact ((mem_dictKeys_dictDel _ _ _).mp ((mem_sortedStrings _ _).mp h1)).2 rfl

/-- C3 witness: deleting the ordinary view alpha after confirmation
removes it everywhere; declining leaves the state unchanged. -/
theorem c3_witness :
    delete_view false c3wstate = some c3wstate ∧
    ∃ s', delete_view true c3wstate = some s' ∧
      dictContains s'.views "alpha" = false ∧
      "alpha" ∉ s'.select_view_combo.items ∧
      ("alpha" ≠ LAST_VIEW_ITEM → "alpha" ∉ s'.auto_view_combo.items) :=
  c3_delete_view_amended c3wstate "alpha" rfl (by decide) (by decide) (by decide)

/-- C6 counterexample: starting from a dialog with no views, entering
the sentinel name in the add-view prompt succeeds and makes the
sentinel a key of the views mapping, so the claimed invariant fails on
the code. -/
theorem c6_counterexample :
    dictContains c6start.views LAST_VIEW_ITEM = false ∧
    (add_view (some "*Last View Used") c6start).map
      (fun s' => dictContains s'.views LAST_VIEW_ITEM) = some true := by
  decide

/-- C6 amended: neither add_view nor the data model prevents the
sentinel name; whenever the entered name strips to the sentinel and
does not collide case-insensitively with an existing view, a
successful add_view leaves the sentinel as a key of the views
mapping. -/
theorem c6_sentinel_not_prevented (s : ConfigState) (raw : String) (s' : ConfigState)
    (hsent : pyStrip raw = LAST_VIEW_ITEM)
    (hfree : ((dictKeys s.views).any
      (fun w => lowerStr w == lowerStr (pyStrip raw))) = false)
    (hadd : add_view (some raw) s = some s') :
    dictContains s'.views LAST_VIEW_ITEM = true := by
  obtain ⟨s1, vi, hp, hviews⟩ := add_view_shape hfree hadd
  rw [dictContains_iff_mem, hviews, ← hsent]
  by_cases hc : dictContains s1.views (pyStrip raw) = true
  · rw [dictKeys_dictSet_of_contains _ hc]
    exact (dictContains_iff_mem _ _).mp hc
  · rw [dictKeys_dictSet_of_not_contains _ (Bool.eq_false_iff.mpr hc)]
    simp

/-- C6 witness: the amended theorem applied to the concrete run of
add_view with the sentinel text on the empty dialog. -/
theorem c6_witness :
    (add_view (some "*Last View Used") c6start).map
      (fun s' => dictContains s'.views LAST_VIEW_ITEM) = some true := by
  rcases hadd : add_view (some "*Last View Used") c6start with _ | s'
  · have hs : (add_view (some "*Last View Used") c6start).isSome = true := by decide
    rw [hadd] at hs
    cases hs
  · rw [show Option.map (fun s' : ConfigState =>
        dictContains s'.views LAST_VIEW_ITEM) (some s') =
        some (dictContains s'.views LAST_VIEW_ITEM) from rfl]
    rw [c6_sentinel_not_prevented c6start "*Last View Used" s'
      (by decide) (by decide) hadd]

/-- C8 counterexample: on a library with no stored configuration and no
legacy entry, get_library_config does not return a record equal to
DEFAULT_LIBRARY_VALUES: the schema migration has stamped
SchemaVersion 1.5 into it (and persisted it) before returning. -/
theorem c8_counterexample :
    (get_library_config [] { fileExists := false, libraries := none }
        "lib-a").config ≠ DEFAULT_LIBRARY_VALUES ∧
    (get_library_config [] { fileExists := false, libraries := none }
        "lib-a").config.schemaVersion = some DEFAULT_SCHEMA_VERSION := by
  decide

/-- C8 amended: on a fresh library the returned record agrees with the
defaults on all four default fields (empty views, empty lastView,
autoApplyView false, sentinel viewToApply) and additionally carries
SchemaVersion 1.5 stamped by the migration, which also persists the
record; the legacy blob is untouched, and the returned record depends
only on the entries for that library, so libraries are independent. -/
theorem c8_fresh_defaults_amended (store : PrefsStore) (legacy : LegacyPrefs)
    (lib : String)
    (hstore : dictGet? store lib = none)
    (hleg : legacy.libraries.bind (fun l => dictGet? l lib) = none) :
    ((get_library_config store legacy lib).config.views = [] ∧
     (get_library_config store legacy lib).config.lastView = "" ∧
     (get_library_config store legacy lib).config.autoApplyView = false ∧
     (get_library_config store legacy lib).config.viewToApply = LAST_VIEW_ITEM ∧
     (get_library_config store legacy lib).config.schemaVersion =
       some DEFAULT_SCHEMA_VERSION ∧
     (get_library_config store legacy lib).legacy = legacy ∧
     (get_library_config store legacy lib).store = set_library_config store lib
       (get_library_config store legacy lib).config) ∧
    (∀ (store2 : PrefsStore) (legacy2 : LegacyPrefs),
      dictGet? store2 lib = dictGet? store lib →
      legacy2.libraries.bind (fun l => dictGet? l lib) =
        legacy.libraries.bind (fun l => dictGet? l lib) →
      (get_library_config store2 legacy2 lib).config =
        (get_library_config store legacy lib).config) := by
  have hfresh := get_library_config_fresh store legacy lib hstore hleg
  constructor
  · rw [hfresh]
    exact ⟨rfl, rfl, rfl, rfl, rfl, rfl, rfl⟩
  · intro store2 legacy2 h1 h2
    rw [get_library_config_config_eq, get_library_config_config_eq, h1, h2]
    exact migrate_snd_indep store2 store lib _

/-- C8 witness: the amended theorem at the concrete empty store and
empty legacy blob. -/
theorem c8_witness :
    (get_library_config [] { fileExists := false, libraries := none }
        "lib-a").config.views = [] ∧
    (get_library_config [] { fileExists := false, libraries := none }
        "lib-a").config.viewToApply = LAST_VIEW_ITEM ∧
    (get_library_config [] { fileExists := false, libraries := none }
        "lib-a").config.schemaVersion = some DEFAULT_SCHEMA_VERSION :=
  ⟨(c8_fresh_defaults_amended [] { fileExists := false, libraries := none }
      "lib-a" rfl rfl).1.1,
   (c8_fresh_defaults_amended [] { fileExists := false, libraries := none }
      "lib-a" rfl rfl).1.2.2.2.1,
   (c8_fresh_defaults_amended [] { fileExists := false, libraries := none }
      "lib-a" rfl rfl).1.2.2.2.2.1⟩

/-- C4: migrate_json_config_if_required is idempotent: with no legacy
file it is a no-op, rerunning it is a no-op, the file is deleted only
when the libraries key is gone from the blob, and a deletion failure is
swallowed leaving the state untouched. -/
theorem c4_json_migration_idempotent (r : Bool) (p : LegacyPrefs) :
    (p.fileExists = false → migrate_json_config_if_required r p = p) ∧
    migrate_json_config_if_required r (migrate_json_config_if_required r p) =
      migrate_json_config_if_required r p ∧
    ((migrate_json_config_if_required r p).fileExists ≠ p.fileExists →
      p.libraries = none) ∧
    (p.libraries.isSome = true → migrate_json_config_if_required r p = p) ∧
    (r = false → migrate_json_config_if_required r p = p) := by
  rcases p with ⟨fe, libs⟩
  rcases fe <;> rcases libs with _ | l <;> rcases r <;>
    simp [migrate_json_config_if_required]

/-- C4 witness: a concrete run where the legacy file exists with the
libraries key gone; rerunning after the deletion is a no-op. -/
theorem c4_witness :
    migrate_json_config_if_required true
        (migrate_json_config_if_required true
          { fileExists := true, libraries := none }) =
      migrate_json_config_if_required true { fileExists := true, libraries := none } ∧
    migrate_json_config_if_required true { fileExists := false, libraries := none } =
      { fileExists := false, libraries := none } ∧
    migrate_json_config_if_required false { fileExists := true, libraries := none } =
      { fileExists := true, libraries := none } :=
  ⟨(c4_json_migration_idempotent true
      { fileExists := true, libraries := none }).2.1,
   (c4_json_migration_idempotent true
      { fileExists := false, libraries := none }).1 rfl,
   (c4_json_migration_idempotent false
      { fileExists := true, libraries := none }).2.2.2.2 rfl⟩

/-- C5: the schema-version migration is a no-op (no store write) on an
up-to-date record, stamps a stale record with the current version and
persists it, and a second run on the result is a no-op. -/
theorem c5_schema_migration_once (store : PrefsStore) (library_id : String)
    (cfg : LibraryConfig) :
    (cfg.schemaVersion = some DEFAULT_SCHEMA_VERSION →
      migrate_library_config_if_required store library_id cfg = (store, cfg)) ∧
    (migrate_library_config_if_required store library_id cfg).2.schemaVersion =
      some DEFAULT_SCHEMA_VERSION ∧
    (∀ store2 : PrefsStore,
      migrate_library_config_if_required store2 library_id
          (migrate_library_config_if_required store library_id cfg).2 =
        (store2, (migrate_library_config_if_required store library_id cfg).2)) ∧
    (cfg.schemaVersion ≠ some DEFAULT_SCHEMA_VERSION →
      migrate_library_config_if_required store library_id cfg =
        (set_library_config store library_id
           { cfg with schemaVersion := some DEFAULT_SCHEMA_VERSION },
         { cfg with schemaVersion := some DEFAULT_SCHEMA_VERSION })) := by
  unfold migrate_library_config_if_required
  rcases hs : cfg.schemaVersion with _ | v
  · simp [hs, DEFAULT_SCHEMA_VERSION]
  · by_cases hv : v = DEFAULT_SCHEMA_VERSION
    · subst hv
      simp [hs]
    · simp [hs, hv]

/-- C5 witness: the defaults record (no SchemaVersion key) is stale:
one run stamps and persists it, a second run does not write. -/
theorem c5_witness :
    migrate_library_config_if_required [] "lib-a" DEFAULT_LIBRARY_VALUES =
      ([("lib-a",
          { DEFAULT_LIBRARY_VALUES with schemaVersion := some DEFAULT_SCHEMA_VERSION })],
       { DEFAULT_LIBRARY_VALUES with schemaVersion := some DEFAULT_SCHEMA_VERSION }) ∧
    migrate_library_config_if_required [] "lib-a"
        { DEFAULT_LIBRARY_VALUES with schemaVersion := some DEFAULT_SCHEMA_VERSION } =
      ([], { DEFAULT_LIBRARY_VALUES with schemaVersion := some DEFAULT_SCHEMA_VERSION }) :=
  ⟨(c5_schema_migration_once [] "lib-a" DEFAULT_LIBRARY_VALUES).2.2.2 (by decide),
   (c5_schema_migration_once [] "lib-a"
      { DEFAULT_LIBRARY_VALUES with schemaVersion := some DEFAULT_SCHEMA_VERSION }).1
     rfl⟩

/-- C7: after populating the columns widget from any stored column list
and reading it back, every returned column is a current host column;
a stored column absent from the host set is discarded. -/
theorem c7_columns_subset (columns all_columns : List (String × Int))
    (hallstrip : ∀ c ∈ all_columns.map Prod.fst, pyStrip c = c) :
    (∀ p ∈ ColumnListWidget.get_data (ColumnListWidget.populate columns all_columns),
       p.1 ∈ all_columns.map Prod.fst) ∧
    (∀ p ∈ columns, p.1 ∉ all_columns.map Prod.fst →
      ∀ w : Int, (p.1, w) ∉
        ColumnListWidget.get_data (ColumnListWidget.populate columns all_columns)) := by
  refine ⟨get_data_populate_names_subset columns all_columns hallstrip, ?_⟩
  intro p hp habs w hmem
  exact habs (get_data_populate_names_subset columns all_columns hallstrip (p.1, w) hmem)

/-- C7 witness: a stored column zzz absent from the host set is dropped
together with its width, the present one survives. -/
theorem c7_witness :
    (∀ p ∈ ColumnListWidget.get_data
        (ColumnListWidget.populate [("zzz", 33), ("title", 10)] [("title", 10)]),
       p.1 ∈ ([("title", 10)] : List (String × Int)).map Prod.fst) ∧
    ∀ w : Int, ("zzz", w) ∉ ColumnListWidget.get_data
        (ColumnListWidget.populate [("zzz", 33), ("title", 10)] [("title", 10)]) :=
  ⟨(c7_columns_subset [("zzz", 33), ("title", 10)] [("title", 10)] (by decide)).1,
   (c7_columns_subset [("zzz", 33), ("title", 10)] [("title", 10)] (by decide)).2
     ("zzz", 33) (by decide) (by decide)⟩

/-- C9: persisting the selected view stores empty restriction and
search names whenever the corresponding checkbox is off, and stores the
checkbox states themselves. -/
theorem c9_disabled_filter_cleared (s : ConfigState) (vn : String)
    (hv : s.view_name = some vn) (hne : vn ≠ "")
    (hg : (dictGet? s.views vn).isSome = true) :
    ∃ s₁, persist_view_config s = some s₁ ∧
      dictGet? s₁.views vn = some (persistedViewInfo s) ∧
      (s.apply_restriction_checkbox = false →
        (persistedViewInfo s).restrictionToApply = "") ∧
      (s.apply_search_checkbox = false → (persistedViewInfo s).searchToApply = "") ∧
      (persistedViewInfo s).applyRestriction = s.apply_restriction_checkbox ∧
      (persistedViewInfo s).applySearch = s.apply_search_checkbox := by
  refine ⟨_, persist_view_config_some hv hne hg,
    dictGet?_dictSet_self _ _ _, ?_, ?_, rfl, rfl⟩
  · intro h; simp [persistedViewInfo, h]
  · intro h; simp [persistedViewInfo, h]

theorem get_data_mem_of (w : ColumnsWidget) (it : ColItem) (hit : it ∈ w.items)
    (hcond : it.checked = true ∨ pyStrip it.name = "ondevice") :
    pyStrip it.name ∈ (ColumnListWidget.get_data w).map Prod.fst := by
  unfold ColumnListWidget.get_data
  apply List.mem_map.mpr
  refine ⟨(pyStrip it.name,
    (dictGet? w.saved_column_widths (pyStrip it.name)).getD
      (((w.all_columns_with_widths.find?
          (fun p => p.1 == pyStrip it.name)).map Prod.snd).getD (-1))), ?_, rfl⟩
  apply List.mem_filterMap.mpr
  refine ⟨it, hit, ?_⟩
  show (if it.checked || pyStrip it.name == "ondevice" then _ else none) = _
  rcases hcond with hc | hc
  · rw [if_pos (by simp [hc])]
  · rw [if_pos (by simp [hc])]

/-- C10: the ondevice column is installed without the user-checkable
flag and with no check mark, and any widget containing an ondevice item
always reports ondevice in get_data, checked or not. -/
theorem c10_ondevice (b : Bool) (w : ColumnsWidget) :
    (ColumnListWidget.populate_column "ondevice" b).checkable = false ∧
    (ColumnListWidget.populate_column "ondevice" b).checked = false ∧
    ((∃ it ∈ w.items, pyStrip it.name = "ondevice") →
      "ondevice" ∈ (ColumnListWidget.get_data w).map Prod.fst) := by
  refine ⟨by simp [ColumnListWidget.populate_column],
    by simp [ColumnListWidget.populate_column], ?_⟩
  rintro ⟨it, hit, hname⟩
  have := get_data_mem_of w it hit (Or.inr hname)
  rwa [hname] at this

/-- C10 witness: a widget holding an unchecked, uncheckable ondevice
item still reports it. -/
theorem c10_witness :
    (ColumnListWidget.populate_column "ondevice" true).checkable = false ∧
    "ondevice" ∈ (ColumnListWidget.get_data
      { items := [{ name := "ondevice", checkable := false, checked := false }],
        saved_column_widths := [], all_columns_with_widths := [] }).map Prod.fst :=
  ⟨(c10_ondevice true
      { items := [{ name := "ondevice", checkable := false, checked := false }],
        saved_column_widths := [], all_columns_with_widths := [] }).1,
   (c10_ondevice true
      { items := [{ name := "ondevice", checkable := false, checked := false }],
        saved_column_widths := [], all_columns_with_widths := [] }).2.2
     ⟨{ name := "ondevice", checkable := false, checked := false },
      by decide, by decide⟩⟩

/-- C2: persisting the current form selections into the selected view
and repopulating the form from that stored view reproduces exactly the
persisted selections: the same checked columns with widths in the same
order, the same checked sort columns with ascending flags in the same
order, the same filter flags, and the same filter names. -/
theorem c2_round_trip (s : ConfigState) (vn : String)
    (hv : s.view_name = some vn) (hne : vn ≠ "")
    (hg : (dictGet? s.views vn).isSome = true)
    (hcombo : pyStrip (comboCurrentText s.select_view_combo) = vn)
    (hallnd : (s.all_columns.map Prod.fst).Nodup)
    (hallstrip : ∀ c ∈ s.all_columns.map Prod.fst, pyStrip c = c)
    (hsub : ∀ p ∈ ColumnListWidget.get_data s.columns_list,
      p.1 ∈ s.all_columns.map Prod.fst)
    (hstrip : ∀ p ∈ ColumnListWidget.get_data s.columns_list, pyStrip p.1 = p.1)
    (hnd : ((ColumnListWidget.get_data s.columns_list).map Prod.fst).Nodup)
    (hond : "ondevice" ∈ s.all_columns.map Prod.fst →
      "ondevice" ∈ (ColumnListWidget.get_data s.columns_list).map Prod.fst)
    (hssub : ∀ p ∈ SortColumnListWidget.get_data s.sort_list,
      p.1 ∈ s.all_columns.map Prod.fst)
    (hsnd : ((SortColumnListWidget.get_data s.sort_list).map Prod.fst).Nodup)
    (hsdec : ∀ p ∈ SortColumnListWidget.get_data s.sort_list, sortRoundElem p = p)
    (hrhead : s.search_restriction_combo.items.headD "" = "")
    (hrmem : pyStrip (comboCurrentText s.search_restriction_combo) ≠ "" →
      pyStrip (comboCurrentText s.search_restriction_combo) ∈
        s.search_restriction_combo.items)
    (hshead : s.saved_search_combo.items.headD "" = "")
    (hsmem : pyStrip (comboCurrentText s.saved_search_combo) ≠ "" →
      pyStrip (comboCurrentText s.saved_search_combo) ∈
        s.saved_search_combo.items) :
    ∃ s2, (persist_view_config s).bind (select_view_combo_index_changed false) =
        some s2 ∧
      dictGet? s2.views vn = some (persistedViewInfo s) ∧
      ColumnListWidget.get_data s2.columns_list =
        ColumnListWidget.get_data s.columns_list ∧
      SortColumnListWidget.get_data s2.sort_list =
        SortColumnListWidget.get_data s.sort_list ∧
      s2.apply_restriction_checkbox = s.apply_restriction_checkbox ∧
      s2.apply_search_checkbox = s.apply_search_checkbox ∧
      comboCurrentText s2.search_restriction_combo =
        (persistedViewInfo s).restrictionToApply ∧
      comboCurrentText s2.saved_search_combo =
        (persistedViewInfo s).searchToApply := by
  have hpersist := persist_view_config_some hv hne hg
  have hcount0 : ¬ comboCount s.select_view_combo = 0 := by
    intro h0
    have hitems : s.select_view_combo.items = [] := List.length_eq_zero.mp h0
    have hct : comboCurrentText s.select_view_combo = "" :=
      comboCurrentText_empty _ hitems
    rw [hct] at hcombo
    exact hne hcombo.symm
  have hget1 : dictGet?
      ({ s with views := dictSet s.views vn (persistedViewInfo s) }
        : ConfigState).views vn = some (persistedViewInfo s) :=
    dictGet?_dictSet_self _ _ _
  have hsel := select_changed_false_compute
    (s := { s with views := dictSet s.views vn (persistedViewInfo s) })
    hcount0 hcombo hne hget1
  refine ⟨{ s with
      views := dictSet s.views vn (persistedViewInfo s),
      view_name := some vn,
      columns_list := ColumnListWidget.populate
        (persistedViewInfo s).columns s.all_columns,
      sort_list := SortColumnListWidget.populate
        (persistedViewInfo s).sort s.all_columns,
      apply_restriction_checkbox := (persistedViewInfo s).applyRestriction,
      search_restriction_combo := searchComboSelectValue
        s.search_restriction_combo (persistedViewInfo s).restrictionToApply,
      apply_search_checkbox := (persistedViewInfo s).applySearch,
      saved_search_combo := searchComboSelectValue
        s.saved_search_combo (persistedViewInfo s).searchToApply },
    ?_, ?_, ?_, ?_, ?_, ?_, ?_, ?_⟩
  · rw [hpersist]
    exact hsel
  · exact dictGet?_dictSet_self _ _ _
  · exact get_data_populate _ _ hsub hstrip hnd hallnd hallstrip hond
  · exact sort_get_data_populate _ _ hssub hsnd hsdec
  · rfl
  · rfl
  · apply searchComboSelectValue_currentText
    · intro _; exact hrhead
    · intro hr
      cases hbr : s.apply_restriction_checkbox with
      | false =>
        simp only [persistedViewInfo, hbr] at hr
        simp at hr
      | true =>
        have hr' : pyStrip (comboCurrentText s.search_restriction_combo) ≠ "" := by
          simpa [persistedViewInfo, hbr] using hr
        have hmem := hrmem hr'
        simpa [persistedViewInfo, hbr] using hmem
  · apply searchComboSelectValue_currentText
    · intro _; exact hshead
    · intro hr
      cases hbs : s.apply_search_checkbox with
      | false =>
        simp only [persistedViewInfo, hbs] at hr
        simp at hr
      | true =>
        have hr' : pyStrip (comboCurrentText s.saved_search_combo) ≠ "" := by
          simpa [persistedViewInfo, hbs] using hr
        have hmem := hsmem hr'
        simpa [persistedViewInfo, hbs] using hmem

/-- C2 witness: the round trip theorem at the concrete dialog state. -/
theorem c2_witness :
    ∃ s2, (persist_view_config c2state).bind
        (select_view_combo_index_changed false) = some s2 ∧
      dictGet? s2.views "v" = some (persistedViewInfo c2state) ∧
      ColumnListWidget.get_data s2.columns_list =
        ColumnListWidget.get_data c2state.columns_list ∧
      SortColumnListWidget.get_data s2.sort_list =
        SortColumnListWidget.get_data c2state.sort_list ∧
      s2.apply_restriction_checkbox = c2state.apply_restriction_checkbox ∧
      s2.apply_search_checkbox = c2state.apply_search_checkbox ∧
      comboCurrentText s2.search_restriction_combo =
        (persistedViewInfo c2state).restrictionToApply ∧
      comboCurrentText s2.saved_search_combo =
        (persistedViewInfo c2state).searchToApply :=
  c2_round_trip c2state "v" rfl (by decide) (by decide) (by decide) (by decide)
    (by decide) (by decide) (by decide) (by decide) (by decide) (by decide)
    (by decide) (by decide) (by decide) (by decide) (by decide) (by decide)

/-- C9 witness: persisting with both filters disabled stores empty
filter names even though the combos show crime and sci-fi. -/
theorem c9_witness :
    ∃ s₁, persist_view_config c9state = some s₁ ∧
      dictGet? s₁.views "alpha" = some (persistedViewInfo c9state) ∧
      (c9state.apply_restriction_checkbox = false →
        (persistedViewInfo c9state).restrictionToApply = "") ∧
      (c9state.apply_search_checkbox = false →
        (persistedViewInfo c9state).searchToApply = "") ∧
      (persistedViewInfo c9state).applyRestriction =
        c9state.apply_restriction_checkbox ∧
      (persistedViewInfo c9state).applySearch = c9state.apply_search_checkbox :=
  c9_disabled_filter_cleared c9state "alpha" rfl (by decide) (by decide)

end ViewManager
